import Mathlib

/-!
Shallow embedding of the Battle Lifecycle Coordinator and Vote Tally
Engine of `backend/server.py` (daddybaddy-social-app).

Conventions of the embedding:
* user ids, battle ids, titles, statuses and modes are `String`s, exactly
  the strings the code stores (`"INVITED"`, `"UPLOADING"`, `"LIVE"`,
  `"ENDED"`, `"CANCELLED"`; modes `"1v1"`, `"multi"`);
* wall-clock time is a `Nat` counting seconds; `timedelta(hours=h)` is
  `h * 3600`;
* the database rows touched by the Coordinator for one battle are
  gathered in `CoordState` (the battle row, its `battle_submissions`
  rows, its `votes` rows, the `notifications` table, and the battle's
  `vote_counts` map);
* Python `set(xs)` is modelled as `xs.dedup`: iteration order of a
  Python set is unspecified, so we fix one canonical order; every
  property verified below is order independent (membership and size);
* an endpoint is a function `... → CoordState → OpResult`: the state it
  leaves behind together with `none` (HTTP 2xx) or `some e` for the
  `HTTPException` it raises.  Errors are paired with the state because
  `accept_battle` mutates the battle (cancellation) before raising.
* arithmetic of `get_battle_results_internal` is modelled exactly over
  `ℚ`; Python's `round(x, 1)` (round-half-to-even) is `pyRound1`.
-/

/-- One row of the `battles` table, restricted to the columns the
Coordinator reads or writes. -/
structure Battle where
  creator_id : String
  mode : String
  status : String
  accept_deadline : Option Nat
  invited_user_ids : List String
  accepted_user_ids : List String
  start_time : Option Nat
  end_time : Option Nat
deriving DecidableEq

/-- One row of `battle_submissions` for the battle under consideration. -/
structure Submission where
  user_id : String
  media_url : String
  created_at : Nat
deriving DecidableEq

/-- One row of `votes` for the battle under consideration.  `choice` is
whatever string the client sent: `vote_battle` does not validate it. -/
structure Vote where
  user_id : String
  choice : String
  created_at : Nat
deriving DecidableEq

/-- One row of `notifications`, as written by `notify_user`. -/
structure Notification where
  user_id : String
  title : String
  message : String
  ntype : String
  reference_id : Option String
deriving DecidableEq

/-- The store as seen by the Coordinator for a single battle. -/
structure CoordState where
  battle : Battle
  submissions : List Submission
  votes : List Vote
  notifications : List Notification
  vote_counts : List (String × Nat)
deriving DecidableEq

/-- An `HTTPException(status_code, detail)`. -/
structure HttpError where
  status : Nat
  detail : String
deriving DecidableEq

/-- `ExpiredWindow` of the error taxonomy: HTTP 400 from `accept_battle`. -/
def expiredWindow : HttpError :=
  ⟨400, "Acceptance window expired"⟩

/-- `Forbidden` (not invited): HTTP 403 from `accept_battle` / `decline_battle`. -/
def forbiddenNotInvited : HttpError :=
  ⟨403, "Not invited"⟩

/-- `Forbidden` (not a participant): HTTP 403 from `upload_battle_submission`. -/
def forbiddenUpload : HttpError :=
  ⟨403, "Not allowed to upload"⟩

/-- `AlreadyVoted`: HTTP 400 from `vote_battle`. -/
def alreadyVoted : HttpError :=
  ⟨400, "User has already voted on this battle"⟩

/-- HTTP 400 from `upload_battle_submission` when no media url was sent. -/
def mediaRequired : HttpError :=
  ⟨400, "media_url required"⟩

/-- Result of one endpoint call: the state left in the store plus the
HTTP error raised, if any. -/
structure OpResult where
  state : CoordState
  error : Option HttpError
deriving DecidableEq

/-- `notify_user` (server.py:63): inserts one `notifications` row;
failures are swallowed, so in the model it always appends. -/
def notify_user (st : CoordState) (user_id title message ntype : String)
    (reference_id : Option String) : CoordState :=
  { st with notifications :=
      st.notifications ++ [⟨user_id, title, message, ntype, reference_id⟩] }

/-- `tag_from_user` (server.py:78). -/
def tag_from_user (uid : String) : String :=
  "@" ++ uid

/-- `_threshold_met` (server.py:1164). -/
def threshold_met (mode : String) (accepted_count : Nat) : Bool :=
  decide ((mode = "1v1" ∧ 1 ≤ accepted_count) ∨ (mode = "multi" ∧ 2 ≤ accepted_count))

/-- `UserBattleCreate.validate_mode` (server.py:307). -/
def validate_mode (v : String) : Except String String :=
  if v = "1v1" ∨ v = "multi" then Except.ok v
  else Except.error "mode must be 1v1 or multi"

/-- `UserBattleCreate.validate_invites` (server.py:313).  The `1v1`
branch raises unless exactly one user is invited; the other branch is
literally `pass` in the source (its comment announces a 2-3 bound that
is never enforced), so every invite list is accepted there. -/
def validate_invites (mode : String) (v : List String) : Except String (List String) :=
  if mode = "1v1" then
    if v.length ≠ 1 then Except.error "1v1 battles require exactly one invited user"
    else Except.ok v
  else
    Except.ok v

/-- The `UserBattleCreate` request body (validated fields only). -/
structure UserBattleCreate where
  title : String
  description : Option String
  mode : String
  invited_user_ids : List String
deriving DecidableEq

/-- `create_user_battle` (server.py:1117): runs the pydantic validators,
inserts the battle row with `status = "INVITED"`,
`accept_deadline = now + 2h`, empty `accepted_user_ids`, and notifies
every invitee. -/
def create_user_battle (now : Nat) (current_user battle_id : String)
    (payload : UserBattleCreate) : Except String CoordState :=
  match validate_mode payload.mode with
  | Except.error e => Except.error e
  | Except.ok mode =>
    match validate_invites mode payload.invited_user_ids with
    | Except.error e => Except.error e
    | Except.ok invited =>
      let battle : Battle :=
        { creator_id := current_user
          mode := mode
          status := "INVITED"
          accept_deadline := some (now + 2 * 3600)
          invited_user_ids := invited
          accepted_user_ids := []
          start_time := none
          end_time := none }
      let st0 : CoordState := ⟨battle, [], [], [], []⟩
      let creator_name := tag_from_user current_user
      Except.ok (invited.foldl
        (fun s uid =>
          notify_user s uid (creator_name ++ " challenged you.")
            "Accept within 2 hours to join." "challenge_sent" (some battle_id))
        st0)

/-- `accept_battle` (server.py:1167).  Order of checks is the source's:
deadline first (cancelling the battle and notifying the creator before
raising), then invitation membership, then idempotence, then the
acceptance write (which also rewrites `status` to `"INVITED"`), the
acceptance notifications, and finally the threshold check. -/
def accept_battle (now : Nat) (current_user battle_id : String)
    (st : CoordState) : OpResult :=
  let data := st.battle
  let expired : Bool :=
    match data.accept_deadline with
    | some d => decide (now > d)
    | none => false
  if expired then
    let st1 := { st with battle := { data with status := "CANCELLED" } }
    let st2 := notify_user st1 data.creator_id "Battle cancelled."
      "Acceptance requirement not met in 2 hours." "battle_result" (some battle_id)
    ⟨st2, some expiredWindow⟩
  else
    let invited := data.invited_user_ids.dedup
    let accepted := data.accepted_user_ids.dedup
    if current_user ∉ invited then ⟨st, some forbiddenNotInvited⟩
    else if current_user ∈ accepted then ⟨st, none⟩
    else
      let accepted1 := accepted ++ [current_user]
      let st1 := { st with battle :=
        { data with accepted_user_ids := accepted1, status := "INVITED" } }
      let accepter := tag_from_user current_user
      let st2 := notify_user st1 data.creator_id
        (accepter ++ " accepted your battle.") "Upload your photo to start."
        "challenge_accepted" (some battle_id)
      let st3 := accepted1.foldl
        (fun s aid =>
          if aid ≠ data.creator_id ∧ aid ≠ current_user then
            notify_user s aid (accepter ++ " joined the battle.")
              "Upload your photo to start." "challenge_accepted" (some battle_id)
          else s)
        st2
      if threshold_met data.mode accepted1.length then
        let st4 := { st3 with battle := { st3.battle with status := "UPLOADING" } }
        let participants := accepted1 ++ [data.creator_id]
        ⟨participants.foldl
          (fun s pid =>
            notify_user s pid "Battle is ready to upload."
              "Upload your image to begin." "battle_started" (some battle_id))
          st4, none⟩
      else ⟨st3, none⟩

/-- `decline_battle` (server.py:1208): validates invitation membership
only; no state effect in the MVP. -/
def decline_battle (current_user battle_id : String) (st : CoordState) : OpResult :=
  let invited := st.battle.invited_user_ids.dedup
  if current_user ∉ invited then ⟨st, some forbiddenNotInvited⟩
  else ⟨st, none⟩

/-- Modelled from the spec: the unique key of the `battle_submissions`
table lives in a database migration that is not part of the source tree.
Spec §3 declares Submission "keyed by (battle_id, user_id) — at most one
row per participant per battle (idempotent upsert)", so the `upsert`
call of `upload_battle_submission` replaces the row of the writing user
when one exists and inserts a new row otherwise. -/
def upsert_submission (subs : List Submission) (uid url : String)
    (now : Nat) : List Submission :=
  if subs.any (fun s => s.user_id = uid) then
    subs.map (fun s => if s.user_id = uid then ⟨uid, url, now⟩ else s)
  else subs ++ [⟨uid, url, now⟩]

/-- `upload_battle_submission` (server.py:1223): creator or accepted
participants only; upserts the submission, then compares the number of
distinct uploaders with `len(accepted) + 1` and, when reached, sets the
battle `LIVE` with `start_time = now`, `end_time = now + 24h` and
notifies all participants. -/
def upload_battle_submission (now : Nat) (current_user battle_id : String)
    (media_url : Option String) (st : CoordState) : OpResult :=
  let data := st.battle
  let creator_id := data.creator_id
  let accepted := data.accepted_user_ids.dedup
  if current_user ≠ creator_id ∧ current_user ∉ accepted then
    ⟨st, some forbiddenUpload⟩
  else
    match media_url with
    | none => ⟨st, some mediaRequired⟩
    | some url =>
      if url = "" then ⟨st, some mediaRequired⟩
      else
        let st1 := { st with
          submissions := upsert_submission st.submissions current_user url now }
        let required := accepted.length + 1
        let unique_uploaders := (st1.submissions.map (fun s => s.user_id)).dedup.length
        if unique_uploaders ≥ required then
          let st2 := { st1 with battle := { st1.battle with
            status := "LIVE",
            start_time := some now,
            end_time := some (now + 24 * 3600) } }
          ⟨(accepted ++ [creator_id]).foldl
            (fun s pid =>
              notify_user s pid "Battle is LIVE for 24 hours."
                "Share to get votes!" "battle_started" (some battle_id))
            st2, none⟩
        else ⟨st1, none⟩

/-- `current_counts[choice] = current_counts.get(choice, 0) + 1` on the
battle's `vote_counts` JSON map, modelled as an association list. -/
def bump_count (counts : List (String × Nat)) (choice : String) : List (String × Nat) :=
  if counts.any (fun p => p.1 = choice) then
    counts.map (fun p => if p.1 = choice then (p.1, p.2 + 1) else p)
  else counts ++ [(choice, 1)]

/-- `vote_battle` (server.py:1304), the non-legacy vote endpoint: checks
for an existing vote by the caller (and nothing else — the battle row is
not read before the insert, so neither `status` nor `end_time` is
checked), inserts the vote with whatever `choice` the client sent,
bumps `vote_counts[choice]`, and notifies the creator best-effort. -/
def vote_battle (now : Nat) (current_user battle_id choice : String)
    (st : CoordState) : OpResult :=
  if st.votes.any (fun v => v.user_id = current_user) then
    ⟨st, some alreadyVoted⟩
  else
    let st1 := { st with votes := st.votes ++ [Vote.mk current_user choice now] }
    let st2 := { st1 with vote_counts := bump_count st1.vote_counts choice }
    let st3 :=
      if st2.battle.creator_id ≠ current_user then
        notify_user st2 st2.battle.creator_id
          (tag_from_user current_user ++ " voted in your battle.") "" "vote"
          (some battle_id)
      else st2
    ⟨st3, none⟩

/-- Round half to even on `ℚ`, the semantics of Python's `round` on an
exactly represented value. -/
def roundHalfEven (q : ℚ) : ℤ :=
  if q - ⌊q⌋ < 1 / 2 then ⌊q⌋
  else if q - ⌊q⌋ > 1 / 2 then ⌊q⌋ + 1
  else if ⌊q⌋ % 2 = 0 then ⌊q⌋ else ⌊q⌋ + 1

/-- Python's `round(x, 1)`. -/
def pyRound1 (q : ℚ) : ℚ :=
  (roundHalfEven (q * 10) : ℚ) / 10

/-- The `BattleResultsResponse` model (percentages exact over `ℚ`). -/
structure BattleResultsResponse where
  battle_id : String
  total_votes : Nat
  option_a_votes : Nat
  option_b_votes : Nat
  option_a_percentage : ℚ
  option_b_percentage : ℚ
deriving DecidableEq

/-- `get_battle_results_internal` (server.py:825): a pure read of the
battle's vote rows (it takes the state and returns a response without
touching the store). -/
def get_battle_results_internal (battle_id : String) (st : CoordState) :
    BattleResultsResponse :=
  let votes := st.votes
  let total_votes := votes.length
  let option_a_votes := (votes.filter (fun v => v.choice = "A")).length
  let option_b_votes := (votes.filter (fun v => v.choice = "B")).length
  let option_a_percentage : ℚ :=
    if total_votes > 0 then (option_a_votes : ℚ) / (total_votes : ℚ) * 100 else 0
  let option_b_percentage : ℚ :=
    if total_votes > 0 then (option_b_votes : ℚ) / (total_votes : ℚ) * 100 else 0
  { battle_id := battle_id
    total_votes := total_votes
    option_a_votes := option_a_votes
    option_b_votes := option_b_votes
    option_a_percentage := pyRound1 option_a_percentage
    option_b_percentage := pyRound1 option_b_percentage }

/-- One inbound Coordinator call on the battle. -/
inductive Op where
  | accept (now : Nat) (uid : String)
  | decline (uid : String)
  | upload (now : Nat) (uid : String) (media_url : Option String)
  | vote (now : Nat) (uid : String) (choice : String)
deriving DecidableEq

/-- State left behind by one call (errors are surfaced to the caller and
leave whatever state the endpoint wrote). -/
def applyOp (battle_id : String) (st : CoordState) : Op → CoordState
  | Op.accept now uid => (accept_battle now uid battle_id st).state
  | Op.decline uid => (decline_battle uid battle_id st).state
  | Op.upload now uid m => (upload_battle_submission now uid battle_id m st).state
  | Op.vote now uid c => (vote_battle now uid battle_id c st).state

/-- Sequential execution of Coordinator calls on one battle. -/
def run (battle_id : String) (st : CoordState) (ops : List Op) : CoordState :=
  ops.foldl (applyOp battle_id) st

/-- Forward order of lifecycle stages (spec §4.1): INVITED, UPLOADING,
LIVE, ENDED; CANCELLED is the terminal exception. -/
def statusRank (s : String) : Nat :=
  if s = "INVITED" then 0
  else if s = "UPLOADING" then 1
  else if s = "LIVE" then 2
  else if s = "ENDED" then 3
  else 4

/-! ### Concrete states and traces used by witnesses and counterexamples -/

/-- A battle whose acceptance window (deadline 7200) has two prior
accepts; used to exercise the expiry path. -/
def c1_wit : CoordState :=
  ⟨⟨"c", "multi", "INVITED", some 7200, ["u1", "u2", "u3"], ["u1", "u2"], none, none⟩,
    [], [], [], []⟩

/-- A MULTI battle with one accepted invitee, one accept short of the
threshold. -/
def c2_wit : CoordState :=
  ⟨⟨"c", "multi", "INVITED", some 7200, ["u1", "u2"], ["u1"], none, none⟩,
    [], [], [], []⟩

/-- The state created by a `1v1` battle whose creator invited
themselves. -/
def c3_state0 : CoordState :=
  ((create_user_battle 0 "c" "b" ⟨"t", none, "1v1", ["c"]⟩).toOption).getD
    ⟨⟨"", "", "", none, [], [], none, none⟩, [], [], [], []⟩

/-- The self-invited battle after the creator accepts: `UPLOADING`, with
`accepted_user_ids = ["c"]`. -/
def c3_pre : CoordState :=
  run "b" c3_state0 [Op.accept 1 "c"]

/-- An `UPLOADING` battle in which the accepted participant has
submitted and the creator has not yet. -/
def c3_wit : CoordState :=
  ⟨⟨"c", "1v1", "UPLOADING", some 7200, ["u"], ["u"], none, none⟩,
    [⟨"u", "m", 0⟩], [], [], []⟩

/-- The state created by a MULTI battle with three invitees. -/
def c4_state0 : CoordState :=
  ((create_user_battle 0 "c" "b" ⟨"t", none, "multi", ["u1", "u2", "u3"]⟩).toOption).getD
    ⟨⟨"", "", "", none, [], [], none, none⟩, [], [], [], []⟩

/-- Two accepts followed by the three required uploads: drives the
MULTI battle to `LIVE`. -/
def c4_ops : List Op :=
  [Op.accept 1 "u1", Op.accept 2 "u2", Op.upload 3 "c" (some "m"),
    Op.upload 4 "u1" (some "m"), Op.upload 5 "u2" (some "m")]

/-- The state created by a MULTI battle with three invitees (C5 copy). -/
def c5_state0 : CoordState :=
  ((create_user_battle 0 "c" "b" ⟨"t", none, "multi", ["u1", "u2", "u3"]⟩).toOption).getD
    ⟨⟨"", "", "", none, [], [], none, none⟩, [], [], [], []⟩

/-- A mixed call sequence: accepts, a decline, an upload and a vote. -/
def c5_ops : List Op :=
  [Op.accept 1 "u1", Op.decline "u2", Op.accept 2 "u3",
    Op.upload 3 "c" (some "m"), Op.vote 4 "z" "A"]

/-- An `ENDED` battle whose `end_time` (5) lies in the past. -/
def c6_state : CoordState :=
  ⟨⟨"c", "1v1", "ENDED", some 7200, ["u"], ["u"], some 0, some 5⟩, [], [], [], []⟩

/-- A `LIVE` battle with no votes yet. -/
def c6w_state : CoordState :=
  ⟨⟨"c", "1v1", "LIVE", none, ["u"], ["u"], some 0, some 86400⟩, [], [], [], []⟩

/-- A `LIVE` battle with no votes yet (C7 copy). -/
def c7_wit : CoordState :=
  ⟨⟨"c", "1v1", "LIVE", none, ["u"], ["u"], some 0, some 86400⟩, [], [], [], []⟩

/-- A `LIVE` battle holding one `"A"` vote and one vote with the
unexpected choice `"C"`. -/
def c10_wit : CoordState :=
  ⟨⟨"c", "1v1", "LIVE", none, ["u"], ["u"], some 0, some 86400⟩, [],
    [⟨"u1", "A", 1⟩, ⟨"u2", "C", 2⟩], [], []⟩

/-- A battle with no votes, for the zero-votes Results example. -/
def resultsZeroState : CoordState :=
  ⟨⟨"c", "1v1", "LIVE", none, ["u"], ["u"], some 0, some 86400⟩, [], [], [], []⟩

/-- A battle with three `"A"` votes and one `"B"` vote, for the
3-vs-1 Results example. -/
def resultsFourState : CoordState :=
  ⟨⟨"c", "1v1", "LIVE", none, ["u"], ["u"], some 0, some 86400⟩, [],
    [⟨"u1", "A", 1⟩, ⟨"u2", "A", 2⟩, ⟨"u3", "A", 3⟩, ⟨"u4", "B", 4⟩], [], []⟩

/-! ### General lemmas about the embedded endpoints -/

/-- A fold of notification sends never touches the battle row. -/
theorem foldl_battle_eq {α : Type} (f : CoordState → α → CoordState)
    (hf : ∀ s a, (f s a).battle = s.battle) :
    ∀ (l : List α) (s : CoordState), (l.foldl f s).battle = s.battle := by
  intro l
  induction l with
  | nil => intro s; rfl
  | cons a t ih => intro s; rw [List.foldl_cons, ih, hf]

/-- A fold of notification sends never touches the submission rows. -/
theorem foldl_submissions_eq {α : Type} (f : CoordState → α → CoordState)
    (hf : ∀ s a, (f s a).submissions = s.submissions) :
    ∀ (l : List α) (s : CoordState), (l.foldl f s).submissions = s.submissions := by
  intro l
  induction l with
  | nil => intro s; rfl
  | cons a t ih => intro s; rw [List.foldl_cons, ih, hf]

/-- `accept_battle` past the deadline: cancels, notifies the creator and
raises, without consulting the caller or the accepted set. -/
theorem accept_expired_char (now d : Nat) (uid bid : String) (st : CoordState)
    (hd : st.battle.accept_deadline = some d) (hnow : d < now) :
    accept_battle now uid bid st =
      ⟨{ st with
           battle := { st.battle with status := "CANCELLED" },
           notifications := st.notifications ++
             [⟨st.battle.creator_id, "Battle cancelled.",
               "Acceptance requirement not met in 2 hours.", "battle_result", some bid⟩] },
        some expiredWindow⟩ := by
  simp [accept_battle, hd, hnow, notify_user]

/-- `accept_battle` with a live deadline and a caller outside the invite
list fails with 403 and leaves the state untouched. -/
theorem accept_not_invited_eq (now : Nat) (uid bid : String) (st : CoordState)
    (hexp : (match st.battle.accept_deadline with
      | some d => decide (now > d) | none => false) = false)
    (hninv : uid ∉ st.battle.invited_user_ids) :
    accept_battle now uid bid st = ⟨st, some forbiddenNotInvited⟩ := by
  simp [accept_battle, hexp, List.mem_dedup, hninv]

/-- `accept_battle` by an already-accepted invitee is an idempotent
no-op. -/
theorem accept_idempotent_eq (now : Nat) (uid bid : String) (st : CoordState)
    (hexp : (match st.battle.accept_deadline with
      | some d => decide (now > d) | none => false) = false)
    (hinv : uid ∈ st.battle.invited_user_ids)
    (hmem : uid ∈ st.battle.accepted_user_ids) :
    accept_battle now uid bid st = ⟨st, none⟩ := by
  simp [accept_battle, hexp, List.mem_dedup, hinv, hmem]

/-- The battle row written by a first-time acceptance: the caller is
appended to the accepted set and the status is rewritten to `INVITED`,
then to `UPLOADING` when the threshold is met. -/
theorem accept_success_battle (now : Nat) (uid bid : String) (st : CoordState)
    (hexp : (match st.battle.accept_deadline with
      | some d => decide (now > d) | none => false) = false)
    (hinv : uid ∈ st.battle.invited_user_ids)
    (hacc : uid ∉ st.battle.accepted_user_ids) :
    (accept_battle now uid bid st).state.battle =
      { st.battle with
          accepted_user_ids := st.battle.accepted_user_ids.dedup ++ [uid],
          status := if threshold_met st.battle.mode
              (st.battle.accepted_user_ids.dedup.length + 1) then "UPLOADING"
            else "INVITED" } ∧
    (accept_battle now uid bid st).error = none := by
  have hfold1 : ∀ (l : List String) (s : CoordState),
      (l.foldl (fun s aid =>
        if aid ≠ st.battle.creator_id ∧ aid ≠ uid then
          notify_user s aid (tag_from_user uid ++ " joined the battle.")
            "Upload your photo to start." "challenge_accepted" (some bid)
        else s) s).battle = s.battle := by
    refine foldl_battle_eq _ ?_
    intro s a
    by_cases h : (a ≠ st.battle.creator_id ∧ a ≠ uid) <;> simp [h, notify_user]
  have hfold2 : ∀ (l : List String) (s : CoordState),
      (l.foldl (fun s pid =>
        notify_user s pid "Battle is ready to upload." "Upload your image to begin."
          "battle_started" (some bid)) s).battle = s.battle :=
    foldl_battle_eq _ (fun s a => rfl)
  simp only [accept_battle, hexp, Bool.false_eq_true, if_false, List.mem_dedup, hinv,
    not_true, if_neg, hacc, ite_false, ite_true]
  constructor
  · split
    · next h =>
        simp only [hfold2, hfold1]
        simp only [List.length_append, List.length_cons, List.length_nil] at h
        simp [notify_user, h]
    · next h =>
        simp only [hfold1]
        simp only [List.length_append, List.length_cons, List.length_nil] at h
        simp [notify_user, h]
  · split <;> rfl

/-- A successful `validate_mode` returns its input. -/
theorem validate_mode_ok (v m : String) (h : validate_mode v = Except.ok m) : m = v := by
  unfold validate_mode at h
  split at h
  · injection h with h
    exact h.symm
  · simp at h

/-- A successful `validate_invites` returns its input unchanged. -/
theorem validate_invites_ok (mode : String) (v w : List String)
    (h : validate_invites mode v = Except.ok w) : w = v := by
  unfold validate_invites at h
  split at h
  · split at h
    · simp at h
    · injection h with h
      exact h.symm
  · injection h with h
    exact h.symm

/-- The battle row inserted by a successful `create_user_battle`. -/
theorem create_user_battle_state (now : Nat) (cu bid : String) (p : UserBattleCreate)
    (st : CoordState) (h : create_user_battle now cu bid p = Except.ok st) :
    st.battle = ⟨cu, p.mode, "INVITED", some (now + 2 * 3600), p.invited_user_ids, [],
      none, none⟩ := by
  have hfold : ∀ (l : List String) (s : CoordState),
      (l.foldl (fun s uid => notify_user s uid (tag_from_user cu ++ " challenged you.")
        "Accept within 2 hours to join." "challenge_sent" (some bid)) s).battle =
      s.battle :=
    foldl_battle_eq _ (fun s a => rfl)
  unfold create_user_battle at h
  split at h
  · simp at h
  · next mode hm =>
    split at h
    · simp at h
    · next invited hi =>
      injection h with h
      subst h
      rw [hfold, validate_mode_ok _ _ hm, validate_invites_ok _ _ _ hi]

/-- `accept_battle` leaves the invite list untouched and only ever adds
members of the invite list to the accepted set. -/
theorem accept_battle_inv (now : Nat) (uid bid : String) (st : CoordState) :
    (accept_battle now uid bid st).state.battle.invited_user_ids =
      st.battle.invited_user_ids ∧
    ∀ x, x ∈ (accept_battle now uid bid st).state.battle.accepted_user_ids →
      x ∈ st.battle.accepted_user_ids ∨ x ∈ st.battle.invited_user_ids := by
  by_cases hexp : (match st.battle.accept_deadline with
      | some d => decide (now > d) | none => false) = true
  · obtain ⟨d, hd, hnow⟩ : ∃ d, st.battle.accept_deadline = some d ∧ d < now := by
      cases hdd : st.battle.accept_deadline with
      | none => rw [hdd] at hexp; exact absurd hexp (by simp)
      | some d =>
        rw [hdd] at hexp
        exact ⟨d, rfl, by simpa using hexp⟩
    rw [accept_expired_char now d uid bid st hd hnow]
    exact ⟨rfl, fun x hx => Or.inl hx⟩
  · rw [Bool.not_eq_true] at hexp
    by_cases hinv : uid ∈ st.battle.invited_user_ids
    · by_cases hmem : uid ∈ st.battle.accepted_user_ids
      · rw [accept_idempotent_eq now uid bid st hexp hinv hmem]
        exact ⟨rfl, fun x hx => Or.inl hx⟩
      · obtain ⟨hb, -⟩ := accept_success_battle now uid bid st hexp hinv hmem
        rw [hb]
        refine ⟨rfl, ?_⟩
        intro x hx
        simp only [List.mem_append, List.mem_dedup, List.mem_singleton] at hx
        rcases hx with hx | hx
        · exact Or.inl hx
        · subst hx; exact Or.inr hinv
    · rw [accept_not_invited_eq now uid bid st hexp hinv]
      exact ⟨rfl, fun x hx => Or.inl hx⟩

/-- `upload_battle_submission` never changes the invite and accepted
lists or the creator. -/
theorem upload_battle_inv (now : Nat) (uid bid : String) (m : Option String)
    (st : CoordState) :
    (upload_battle_submission now uid bid m st).state.battle.invited_user_ids =
      st.battle.invited_user_ids ∧
    (upload_battle_submission now uid bid m st).state.battle.accepted_user_ids =
      st.battle.accepted_user_ids ∧
    (upload_battle_submission now uid bid m st).state.battle.creator_id =
      st.battle.creator_id := by
  have hfold : ∀ (l : List String) (s : CoordState),
      (l.foldl (fun s pid =>
        notify_user s pid "Battle is LIVE for 24 hours." "Share to get votes!"
          "battle_started" (some bid)) s).battle = s.battle :=
    foldl_battle_eq _ (fun s a => rfl)
  simp only [upload_battle_submission]
  split
  · exact ⟨rfl, rfl, rfl⟩
  · split
    · exact ⟨rfl, rfl, rfl⟩
    · split
      · exact ⟨rfl, rfl, rfl⟩
      · split
        · exact ⟨by rw [hfold], by rw [hfold], by rw [hfold]⟩
        · exact ⟨rfl, rfl, rfl⟩

/-- `vote_battle` never touches the battle row of the model (it writes
votes, `vote_counts` and notifications only). -/
theorem vote_battle_battle_eq (now : Nat) (uid bid choice : String) (st : CoordState) :
    (vote_battle now uid bid choice st).state.battle = st.battle := by
  simp only [vote_battle]
  split
  · rfl
  · split <;> rfl

/-- `decline_battle` has no state effect. -/
theorem decline_battle_state_eq (uid bid : String) (st : CoordState) :
    (decline_battle uid bid st).state = st := by
  simp only [decline_battle]
  split <;> rfl

/-- One Coordinator call preserves the invite list and only adds invited
users to the accepted set. -/
theorem applyOp_inv (bid : String) (st : CoordState) (op : Op) :
    (applyOp bid st op).battle.invited_user_ids = st.battle.invited_user_ids ∧
    ∀ x, x ∈ (applyOp bid st op).battle.accepted_user_ids →
      x ∈ st.battle.accepted_user_ids ∨ x ∈ st.battle.invited_user_ids := by
  cases op with
  | accept now uid => exact accept_battle_inv now uid bid st
  | decline uid =>
    rw [show applyOp bid st (Op.decline uid) = (decline_battle uid bid st).state from rfl,
      decline_battle_state_eq]
    exact ⟨rfl, fun x hx => Or.inl hx⟩
  | upload now uid m =>
    obtain ⟨h1, h2, -⟩ := upload_battle_inv now uid bid m st
    exact ⟨h1, fun x hx => Or.inl (h2 ▸ hx)⟩
  | vote now uid c =>
    rw [show applyOp bid st (Op.vote now uid c) = (vote_battle now uid bid c st).state
        from rfl, vote_battle_battle_eq]
    exact ⟨rfl, fun x hx => Or.inl hx⟩

/-- The `accepted ⊆ invited` invariant is preserved by every sequence of
Coordinator calls. -/
theorem run_accepted_subset (bid : String) (ops : List Op) :
    ∀ st : CoordState,
      (∀ x, x ∈ st.battle.accepted_user_ids → x ∈ st.battle.invited_user_ids) →
      ((run bid st ops).battle.invited_user_ids = st.battle.invited_user_ids ∧
       ∀ x, x ∈ (run bid st ops).battle.accepted_user_ids →
         x ∈ (run bid st ops).battle.invited_user_ids) := by
  induction ops with
  | nil => exact fun st h => ⟨rfl, h⟩
  | cons op t ih =>
    intro st h
    obtain ⟨hinv, hacc⟩ := applyOp_inv bid st op
    obtain ⟨ih1, ih2⟩ := ih (applyOp bid st op) (by
      intro x hx
      rcases hacc x hx with hx' | hx'
      · rw [hinv]; exact h x hx'
      · rw [hinv]; exact hx')
    refine ⟨?_, ?_⟩
    · rw [show run bid st (op :: t) = run bid (applyOp bid st op) t from rfl, ih1, hinv]
    · rw [show run bid st (op :: t) = run bid (applyOp bid st op) t from rfl]
      exact ih2

/-- A `vote_battle` call by a user with no prior vote row: succeeds,
appends the vote, leaves the battle row alone and bumps the tally map. -/
theorem vote_battle_any_false (now : Nat) (uid bid choice : String) (st : CoordState)
    (hany : st.votes.any (fun v => v.user_id = uid) = false) :
    (vote_battle now uid bid choice st).error = none ∧
    (vote_battle now uid bid choice st).state.votes =
      st.votes ++ [Vote.mk uid choice now] ∧
    (vote_battle now uid bid choice st).state.battle = st.battle ∧
    (vote_battle now uid bid choice st).state.vote_counts =
      bump_count st.vote_counts choice := by
  simp only [vote_battle, hany, Bool.false_eq_true, if_false]
  refine ⟨trivial, ?_, ?_, ?_⟩ <;> (split <;> rfl)

/-- A `vote_battle` call by a user with a prior vote row is rejected
with 400 and changes nothing. -/
theorem vote_battle_any_true (now : Nat) (uid bid choice : String) (st : CoordState)
    (hany : st.votes.any (fun v => v.user_id = uid) = true) :
    vote_battle now uid bid choice st = ⟨st, some alreadyVoted⟩ := by
  simp [vote_battle, hany]

/-- A successful `vote_battle` call implies the caller had no prior
vote row. -/
theorem vote_error_none_any_false (now : Nat) (uid bid choice : String) (st : CoordState)
    (h : (vote_battle now uid bid choice st).error = none) :
    st.votes.any (fun v => v.user_id = uid) = false := by
  by_cases hany : st.votes.any (fun v => v.user_id = uid) = true
  · rw [vote_battle_any_true now uid bid choice st hany] at h
    simp at h
  · exact Bool.not_eq_true _ |>.mp hany

/-- In any list of votes, the `"A"` votes and the `"B"` votes together
never outnumber the list, with equality exactly when every choice is
`"A"` or `"B"`. -/
theorem filter_ab_le (l : List Vote) :
    (l.filter (fun v => v.choice = "A")).length +
        (l.filter (fun v => v.choice = "B")).length ≤ l.length ∧
    ((l.filter (fun v => v.choice = "A")).length +
        (l.filter (fun v => v.choice = "B")).length = l.length ↔
      ∀ v ∈ l, v.choice = "A" ∨ v.choice = "B") := by
  induction l with
  | nil => simp
  | cons v t ih =>
    obtain ⟨ih1, ih2⟩ := ih
    by_cases hA : v.choice = "A"
    · have hB : ¬ v.choice = "B" := by rw [hA]; decide
      simp [List.filter_cons, hA, hB, List.forall_mem_cons]
      refine ⟨by omega, ?_, ?_⟩
      · intro hEq
        exact ih2.mp (by omega)
      · intro hAll
        have := ih2.mpr hAll
        omega
    · by_cases hB : v.choice = "B"
      · simp [List.filter_cons, hA, hB, List.forall_mem_cons]
        refine ⟨by omega, ?_, ?_⟩
        · intro hEq
          exact ih2.mp (by omega)
        · intro hAll
          have := ih2.mpr hAll
          omega
      · simp [List.filter_cons, hA, hB, List.forall_mem_cons]
        omega

/-- Python `round(0, 1) = 0`. -/
theorem pyRound1_zero : pyRound1 0 = 0 := by
  norm_num [pyRound1, roundHalfEven]

/-- Every user id present after an upsert is either the writer or was
present before. -/
theorem upsert_map_user_iff (subs : List Submission) (uid url : String) (now : Nat)
    (x : String) :
    x ∈ (upsert_submission subs uid url now).map (fun s => s.user_id) ↔
      x = uid ∨ x ∈ subs.map (fun s => s.user_id) := by
  unfold upsert_submission
  split
  · next h =>
    simp only [List.map_map, List.mem_map, Function.comp]
    constructor
    · rintro ⟨t, ht, he⟩
      by_cases hu : t.user_id = uid
      · left
        rw [← he]
        simp [hu]
      · right
        exact ⟨t, ht, by rw [← he]; simp [hu]⟩
    · rintro (he | ⟨t, ht, he⟩)
      · obtain ⟨t, ht, hte⟩ := List.any_eq_true.mp h
        have htu : t.user_id = uid := by simpa using hte
        exact ⟨t, ht, by simp [htu, he.symm]⟩
      · by_cases hu : t.user_id = uid
        · exact ⟨t, ht, by simp [hu]; rw [← he, hu]⟩
        · exact ⟨t, ht, by simp [hu]; exact he⟩
  · simp only [List.map_append, List.mem_append, List.map_cons, List.map_nil,
      List.mem_singleton]
    tauto

/-- For a list `sub` whose members all come from `req`, having at least
`|req|` distinct members is the same as containing every member of
`req`. -/
theorem coverage_iff_card (sub req : List String) (hsub : ∀ x ∈ sub, x ∈ req) :
    req.toFinset.card ≤ sub.dedup.length ↔ ∀ r ∈ req, r ∈ sub := by
  rw [← List.card_toFinset]
  constructor
  · intro hcard r hr
    have hUR : sub.toFinset ⊆ req.toFinset := by
      intro x hx
      exact List.mem_toFinset.mpr (hsub x (List.mem_toFinset.mp hx))
    have heq := Finset.eq_of_subset_of_card_le hUR hcard
    have hr' : r ∈ req.toFinset := List.mem_toFinset.mpr hr
    rw [← heq] at hr'
    exact List.mem_toFinset.mp hr'
  · intro hcov
    exact Finset.card_le_card
      (fun x hx => List.mem_toFinset.mpr (hcov x (List.mem_toFinset.mp hx)))

/-- When the creator is not among the accepted users, the code's
`len(accepted) + 1` equals the number of distinct required submitters. -/
theorem required_card (cr : String) (A : List String) (hcr : cr ∉ A) :
    (cr :: A).toFinset.card = A.dedup.length + 1 := by
  rw [List.toFinset_cons,
    Finset.card_insert_of_not_mem (by simpa [List.mem_toFinset] using hcr),
    List.card_toFinset]

/-- An authorised `upload_battle_submission` with a media url: upserts
the submission and goes `LIVE` exactly when the distinct-uploader count
reaches `len(accepted) + 1`. -/
theorem upload_success_char (now : Nat) (uid bid url : String) (st : CoordState)
    (hperm : uid = st.battle.creator_id ∨ uid ∈ st.battle.accepted_user_ids)
    (hurl : ¬ url = "") :
    (upload_battle_submission now uid bid (some url) st).error = none ∧
    (upload_battle_submission now uid bid (some url) st).state.submissions =
      upsert_submission st.submissions uid url now ∧
    (upload_battle_submission now uid bid (some url) st).state.battle =
      (if ((upsert_submission st.submissions uid url now).map
            (fun s => s.user_id)).dedup.length ≥
          st.battle.accepted_user_ids.dedup.length + 1
       then { st.battle with
            status := "LIVE",
            start_time := some now,
            end_time := some (now + 24 * 3600) }
       else st.battle) := by
  have hfoldb : ∀ (l : List String) (s : CoordState),
      (l.foldl (fun s pid =>
        notify_user s pid "Battle is LIVE for 24 hours." "Share to get votes!"
          "battle_started" (some bid)) s).battle = s.battle :=
    foldl_battle_eq _ (fun s a => rfl)
  have hfolds : ∀ (l : List String) (s : CoordState),
      (l.foldl (fun s pid =>
        notify_user s pid "Battle is LIVE for 24 hours." "Share to get votes!"
          "battle_started" (some bid)) s).submissions = s.submissions :=
    foldl_submissions_eq _ (fun s a => rfl)
  have hcond : ¬ (uid ≠ st.battle.creator_id ∧
      uid ∉ st.battle.accepted_user_ids.dedup) := by
    rcases hperm with h | h
    · intro hc
      exact hc.1 h
    · intro hc
      exact hc.2 (List.mem_dedup.mpr h)
  simp only [upload_battle_submission, if_neg hcond, if_neg hurl]
  split
  · next h =>
    exact ⟨rfl, hfolds _ _, by rw [hfoldb]⟩
  · next h =>
    exact ⟨rfl, rfl, rfl⟩

/-! ### Claims -/

/-- C1: for every battle with a non-null `accept_deadline`, calling
Accept at a time strictly after the deadline sets the status to
CANCELLED, appends exactly one "Battle cancelled." notification for the
creator, and fails with `ExpiredWindow` — for every caller (invited or
not, so before any membership check) and every prior accepted set. -/
theorem accept_past_deadline_cancels (now d : Nat) (uid bid : String) (st : CoordState)
    (hd : st.battle.accept_deadline = some d) (hnow : d < now) :
    accept_battle now uid bid st =
      ⟨{ st with
           battle := { st.battle with status := "CANCELLED" },
           notifications := st.notifications ++
             [⟨st.battle.creator_id, "Battle cancelled.",
               "Acceptance requirement not met in 2 hours.", "battle_result", some bid⟩] },
        some expiredWindow⟩ :=
  accept_expired_char now d uid bid st hd hnow

/-- Witness for C1: a non-invited caller, two prior accepts, time 8000
against deadline 7200. -/
theorem accept_past_deadline_cancels_witness :
    accept_battle 8000 "zz" "b" c1_wit =
      ⟨{ c1_wit with
           battle := { c1_wit.battle with status := "CANCELLED" },
           notifications := c1_wit.notifications ++
             [⟨c1_wit.battle.creator_id, "Battle cancelled.",
               "Acceptance requirement not met in 2 hours.", "battle_result", some "b"⟩] },
        some expiredWindow⟩ :=
  accept_past_deadline_cancels 8000 7200 "zz" "b" c1_wit (by decide) (by decide)

/-- C2: a successful first-time Accept within the window succeeds, the
resulting accepted count is the previous distinct count plus one, and
the battle's status becomes UPLOADING exactly when that count reaches
the mode's threshold (`1v1`: ≥ 1, `multi`: ≥ 2) — otherwise the status
stays INVITED (never earlier). -/
theorem accept_threshold_transition (now : Nat) (uid bid : String) (st : CoordState)
    (hexp : (match st.battle.accept_deadline with
      | some d => decide (now > d) | none => false) = false)
    (hinv : uid ∈ st.battle.invited_user_ids)
    (hacc : uid ∉ st.battle.accepted_user_ids) :
    (accept_battle now uid bid st).error = none ∧
    (accept_battle now uid bid st).state.battle.accepted_user_ids.length =
      st.battle.accepted_user_ids.dedup.length + 1 ∧
    ((accept_battle now uid bid st).state.battle.status = "UPLOADING" ↔
      ((st.battle.mode = "1v1" ∧ 1 ≤ st.battle.accepted_user_ids.dedup.length + 1) ∨
       (st.battle.mode = "multi" ∧ 2 ≤ st.battle.accepted_user_ids.dedup.length + 1))) ∧
    (¬ ((st.battle.mode = "1v1" ∧ 1 ≤ st.battle.accepted_user_ids.dedup.length + 1) ∨
        (st.battle.mode = "multi" ∧ 2 ≤ st.battle.accepted_user_ids.dedup.length + 1)) →
      (accept_battle now uid bid st).state.battle.status = "INVITED") := by
  obtain ⟨hb, he⟩ := accept_success_battle now uid bid st hexp hinv hacc
  have hiff : threshold_met st.battle.mode
      (st.battle.accepted_user_ids.dedup.length + 1) = true ↔
      ((st.battle.mode = "1v1" ∧ 1 ≤ st.battle.accepted_user_ids.dedup.length + 1) ∨
       (st.battle.mode = "multi" ∧ 2 ≤ st.battle.accepted_user_ids.dedup.length + 1)) := by
    simp only [threshold_met, decide_eq_true_eq]
  have hstat : (accept_battle now uid bid st).state.battle.status =
      if threshold_met st.battle.mode (st.battle.accepted_user_ids.dedup.length + 1) = true
      then "UPLOADING" else "INVITED" := by rw [hb]
  have hlen : (accept_battle now uid bid st).state.battle.accepted_user_ids.length =
      st.battle.accepted_user_ids.dedup.length + 1 := by rw [hb]; simp
  refine ⟨he, hlen, ?_, ?_⟩
  · rw [hstat]
    by_cases hc : threshold_met st.battle.mode
        (st.battle.accepted_user_ids.dedup.length + 1) = true
    · rw [if_pos hc]
      exact iff_of_true rfl (hiff.mp hc)
    · rw [if_neg hc]
      exact iff_of_false (by decide) (fun hD => hc (hiff.mpr hD))
  · intro hD
    rw [hstat, if_neg (fun hc => hD (hiff.mp hc))]

/-- Witness for C2: the second accept of a MULTI battle reaches the
threshold and moves the battle to UPLOADING. -/
theorem accept_threshold_transition_witness :
    (accept_battle 10 "u2" "b" c2_wit).error = none ∧
    (accept_battle 10 "u2" "b" c2_wit).state.battle.status = "UPLOADING" := by
  have h := accept_threshold_transition 10 "u2" "b" c2_wit (by decide) (by decide)
    (by decide)
  exact ⟨h.1, h.2.2.1.mpr (by decide)⟩

/-- C3 counterexample: in a reachable battle (creator self-invited a
`1v1` battle and accepted), the battle sits in UPLOADING, the required
participants (creator plus accepted) are exactly `"c"`, and after the
creator's upload every required participant has a submission — yet the
status stays UPLOADING and no `start_time` is set, because the code
compares distinct uploaders against `len(accepted) + 1 = 2`. -/
theorem upload_coverage_without_transition :
    c3_pre.battle.status = "UPLOADING" ∧
    c3_pre.battle.creator_id = "c" ∧
    c3_pre.battle.accepted_user_ids = ["c"] ∧
    (upload_battle_submission 2 "c" "b" (some "m") c3_pre).error = none ∧
    (upload_battle_submission 2 "c" "b" (some "m") c3_pre).state.submissions.map
      (fun s => s.user_id) = ["c"] ∧
    (upload_battle_submission 2 "c" "b" (some "m") c3_pre).state.battle.status =
      "UPLOADING" ∧
    (upload_battle_submission 2 "c" "b" (some "m") c3_pre).state.battle.start_time =
      none := by
  refine ⟨by decide, by decide, by decide, by decide, by decide, by decide, by decide⟩

/-- C3 (amended): provided the creator is not among the accepted users,
an authorised upload with a media url succeeds, and the battle goes
LIVE with `start_time = now` and `end_time = now + 24h` exactly when the
distinct submitters cover creator plus all accepted users; when coverage
fails the battle row is unchanged; and a repeat upload by a user with an
existing submission row adds no second row (so it cannot trigger the
transition prematurely). -/
theorem upload_completeness_transition (now : Nat) (uid bid url : String)
    (st : CoordState)
    (hstat : st.battle.status = "UPLOADING")
    (hcr : st.battle.creator_id ∉ st.battle.accepted_user_ids)
    (hsubs : ∀ s ∈ st.submissions, s.user_id = st.battle.creator_id ∨
       s.user_id ∈ st.battle.accepted_user_ids)
    (hperm : uid = st.battle.creator_id ∨ uid ∈ st.battle.accepted_user_ids)
    (hurl : ¬ url = "") :
    (upload_battle_submission now uid bid (some url) st).error = none ∧
    (((upload_battle_submission now uid bid (some url) st).state.battle.status = "LIVE" ∧
      (upload_battle_submission now uid bid (some url) st).state.battle.start_time =
        some now ∧
      (upload_battle_submission now uid bid (some url) st).state.battle.end_time =
        some (now + 24 * 3600)) ↔
      ∀ r ∈ st.battle.creator_id :: st.battle.accepted_user_ids,
        r ∈ (upload_battle_submission now uid bid (some url) st).state.submissions.map
          (fun s => s.user_id)) ∧
    ((¬ ∀ r ∈ st.battle.creator_id :: st.battle.accepted_user_ids,
        r ∈ (upload_battle_submission now uid bid (some url) st).state.submissions.map
          (fun s => s.user_id)) →
      (upload_battle_submission now uid bid (some url) st).state.battle = st.battle) ∧
    (uid ∈ st.submissions.map (fun s => s.user_id) →
      (upload_battle_submission now uid bid (some url) st).state.submissions.length =
        st.submissions.length) := by
  obtain ⟨he, hsub, hbat⟩ := upload_success_char now uid bid url st hperm hurl
  have hsubreq : ∀ x ∈ (upsert_submission st.submissions uid url now).map
      (fun s => s.user_id), x ∈ st.battle.creator_id :: st.battle.accepted_user_ids := by
    intro x hx
    rcases (upsert_map_user_iff st.submissions uid url now x).mp hx with he' | hx'
    · subst he'
      rcases hperm with h | h
      · rw [h]
        exact List.mem_cons_self _ _
      · exact List.mem_cons_of_mem _ h
    · rw [List.mem_map] at hx'
      obtain ⟨s, hs, hsx⟩ := hx'
      rcases hsubs s hs with h | h
      · rw [← hsx, h]
        exact List.mem_cons_self _ _
      · exact List.mem_cons_of_mem _ (hsx ▸ h)
  have hiff : ((upsert_submission st.submissions uid url now).map
        (fun s => s.user_id)).dedup.length ≥
      st.battle.accepted_user_ids.dedup.length + 1 ↔
      ∀ r ∈ st.battle.creator_id :: st.battle.accepted_user_ids,
        r ∈ (upsert_submission st.submissions uid url now).map (fun s => s.user_id) := by
    rw [ge_iff_le, ← required_card st.battle.creator_id st.battle.accepted_user_ids hcr]
    exact coverage_iff_card _ _ hsubreq
  have hlen : uid ∈ st.submissions.map (fun s => s.user_id) →
      (upload_battle_submission now uid bid (some url) st).state.submissions.length =
        st.submissions.length := by
    intro hmem
    rw [hsub]
    have hany : st.submissions.any (fun s => s.user_id = uid) = true := by
      rw [List.any_eq_true]
      rw [List.mem_map] at hmem
      obtain ⟨s, hs, he'⟩ := hmem
      exact ⟨s, hs, by simp [he']⟩
    simp [upsert_submission, hany]
  by_cases hc : ((upsert_submission st.submissions uid url now).map
      (fun s => s.user_id)).dedup.length ≥ st.battle.accepted_user_ids.dedup.length + 1
  · rw [if_pos hc] at hbat
    refine ⟨he, ?_, ?_, hlen⟩
    · rw [hsub]
      exact iff_of_true ⟨by rw [hbat], by rw [hbat], by rw [hbat]⟩ (hiff.mp hc)
    · intro hcov
      exact absurd (by rw [hsub]; exact hiff.mp hc) hcov
  · rw [if_neg hc] at hbat
    refine ⟨he, ?_, ?_, hlen⟩
    · rw [hsub]
      refine iff_of_false ?_ (fun hcov => hc (hiff.mpr hcov))
      intro hLIVE
      rw [hbat, hstat] at hLIVE
      exact absurd hLIVE.1 (by decide)
    · intro _
      exact hbat

/-- Witness for C3: the creator completes the uploads of an UPLOADING
battle whose accepted participant already submitted; the battle goes
LIVE. -/
theorem upload_completeness_transition_witness :
    (upload_battle_submission 5 "c" "b" (some "m") c3_wit).error = none ∧
    (upload_battle_submission 5 "c" "b" (some "m") c3_wit).state.battle.status =
      "LIVE" := by
  have h := upload_completeness_transition 5 "c" "b" "m" c3_wit (by decide) (by decide)
    (by decide) (by decide) (by decide)
  exact ⟨h.1, (h.2.1.mpr (by decide)).1⟩

/-- C4: the status order is not monotonic.  From creation, two accepts
and three uploads drive the MULTI battle to LIVE (within the 2-hour
window, deadline 7200); the third invitee's accept at time 6 then
rewrites the status to INVITED and the threshold check leaves it at
UPLOADING — a LIVE battle moved backwards by `accept_battle`'s
unconditional `"status": "INVITED"` write. -/
theorem accept_demotes_live_battle :
    (create_user_battle 0 "c" "b" ⟨"t", none, "multi", ["u1", "u2", "u3"]⟩).toOption.isSome
      = true ∧
    (run "b" c4_state0 c4_ops).battle.status = "LIVE" ∧
    c4_state0.battle.accept_deadline = some 7200 ∧ (6 : Nat) < 7200 ∧
    (run "b" c4_state0 (c4_ops ++ [Op.accept 6 "u3"])).battle.status = "UPLOADING" ∧
    statusRank "UPLOADING" < statusRank "LIVE" ∧ "UPLOADING" ≠ "CANCELLED" := by
  refine ⟨by decide, by decide, by decide, by decide, by decide, by decide, by decide⟩

/-- C5: creation initialises `accepted_user_ids` to the empty list;
after any sequence of Coordinator calls the accepted set stays inside
the invite set; and an Accept by a non-invited caller (within the
window) fails with `Forbidden` and leaves the state unchanged. -/
theorem accepted_subset_invited (now : Nat) (cu bid : String) (p : UserBattleCreate)
    (st : CoordState) (h : create_user_battle now cu bid p = Except.ok st)
    (ops : List Op) :
    st.battle.accepted_user_ids = [] ∧
    (∀ x, x ∈ (run bid st ops).battle.accepted_user_ids →
       x ∈ (run bid st ops).battle.invited_user_ids) ∧
    (∀ (now2 : Nat) (uid2 : String) (st2 : CoordState),
       (match st2.battle.accept_deadline with
        | some d => decide (now2 > d) | none => false) = false →
       uid2 ∉ st2.battle.invited_user_ids →
       accept_battle now2 uid2 bid st2 = ⟨st2, some forbiddenNotInvited⟩) := by
  have hb := create_user_battle_state now cu bid p st h
  have hempty : st.battle.accepted_user_ids = [] := by rw [hb]
  refine ⟨hempty, ?_,
    fun now2 uid2 st2 hexp hninv => accept_not_invited_eq now2 uid2 bid st2 hexp hninv⟩
  exact (run_accepted_subset bid ops st (by rw [hempty]; intro x hx; simp at hx)).2

/-- Witness for C5: a mixed trace of accepts, a decline, an upload and a
vote on a freshly created MULTI battle keeps `accepted ⊆ invited`; the
acceptor `"u1"` is accepted after the trace and, by the invariant, is in
the invite list. -/
theorem accepted_subset_invited_witness :
    "u1" ∈ (run "b" c5_state0 c5_ops).battle.invited_user_ids :=
  (accepted_subset_invited 0 "c" "b" ⟨"t", none, "multi", ["u1", "u2", "u3"]⟩ c5_state0
    rfl c5_ops).2.1 "u1" (by decide)

/-- C6 counterexample: on an ENDED battle whose `end_time` (5) lies
before the call time (10), `vote_battle` neither fails with
`InvalidState` nor leaves the vote table unchanged — it succeeds and
persists the row, because the endpoint never reads `status` or
`end_time`. -/
theorem vote_no_invalid_state_check :
    c6_state.battle.status ≠ "LIVE" ∧
    c6_state.battle.end_time = some 5 ∧ (5 : Nat) < 10 ∧
    (vote_battle 10 "v" "b" "A" c6_state).error = none ∧
    (vote_battle 10 "v" "b" "A" c6_state).state.votes = [Vote.mk "v" "A" 10] := by
  refine ⟨by decide, by decide, by decide, by decide, by decide⟩

/-- C6 (amended): `vote_battle` performs no battle-status or `end_time`
validation.  Whatever status and end_time the battle carries, a caller
with no prior vote row succeeds and the vote is persisted; and on any
state the only possible failure is `AlreadyVoted`, returned with the
state unchanged. -/
theorem vote_ignores_status (now : Nat) (uid bid choice s : String) (e : Option Nat)
    (st : CoordState) (hno : ∀ v ∈ st.votes, v.user_id ≠ uid) :
    (vote_battle now uid bid choice
        ⟨{ st.battle with status := s, end_time := e }, st.submissions, st.votes,
          st.notifications, st.vote_counts⟩).error = none ∧
    (vote_battle now uid bid choice
        ⟨{ st.battle with status := s, end_time := e }, st.submissions, st.votes,
          st.notifications, st.vote_counts⟩).state.votes =
      st.votes ++ [Vote.mk uid choice now] ∧
    (∀ st2 : CoordState, (vote_battle now uid bid choice st2).error = none ∨
       vote_battle now uid bid choice st2 = ⟨st2, some alreadyVoted⟩) := by
  have hany : (st.votes.any (fun v => v.user_id = uid)) = false := by
    rw [List.any_eq_false]
    intro v hv
    simp [hno v hv]
  obtain ⟨h1, h2, -, -⟩ := vote_battle_any_false now uid bid choice
    ⟨{ st.battle with status := s, end_time := e }, st.submissions, st.votes,
      st.notifications, st.vote_counts⟩ hany
  refine ⟨h1, h2, ?_⟩
  intro st2
  by_cases hany2 : st2.votes.any (fun v => v.user_id = uid) = true
  · exact Or.inr (vote_battle_any_true now uid bid choice st2 hany2)
  · exact Or.inl (vote_battle_any_false now uid bid choice st2
      (Bool.not_eq_true _ |>.mp hany2)).1

/-- Witness for C6 (amended): a first vote on a battle forced to status
ENDED with a past end_time succeeds. -/
theorem vote_ignores_status_witness :
    (vote_battle 10 "v" "b" "A"
        ⟨{ c6w_state.battle with status := "ENDED", end_time := some 5 },
          c6w_state.submissions, c6w_state.votes, c6w_state.notifications,
          c6w_state.vote_counts⟩).error = none :=
  (vote_ignores_status 10 "v" "b" "A" "ENDED" (some 5) c6w_state (by decide)).1

/-- C7: after a successful vote, a second `vote_battle` call by the same
user on the same battle fails with `AlreadyVoted` and returns the state
untouched — so the stored votes, the Results payload and the
`vote_counts` map all stay exactly as after the first vote. -/
theorem second_vote_already_voted (n1 n2 : Nat) (uid bid c1 c2 : String)
    (st : CoordState) (h : (vote_battle n1 uid bid c1 st).error = none) :
    vote_battle n2 uid bid c2 (vote_battle n1 uid bid c1 st).state =
      ⟨(vote_battle n1 uid bid c1 st).state, some alreadyVoted⟩ ∧
    get_battle_results_internal bid
        (vote_battle n2 uid bid c2 (vote_battle n1 uid bid c1 st).state).state =
      get_battle_results_internal bid (vote_battle n1 uid bid c1 st).state ∧
    (vote_battle n2 uid bid c2 (vote_battle n1 uid bid c1 st).state).state.vote_counts =
      (vote_battle n1 uid bid c1 st).state.vote_counts := by
  have hany := vote_error_none_any_false n1 uid bid c1 st h
  obtain ⟨-, hv, -, -⟩ := vote_battle_any_false n1 uid bid c1 st hany
  have hany2 : (vote_battle n1 uid bid c1 st).state.votes.any
      (fun v => v.user_id = uid) = true := by
    rw [hv]
    simp [List.any_append]
  have heq := vote_battle_any_true n2 uid bid c2 _ hany2
  rw [heq]
  exact ⟨rfl, rfl, rfl⟩

/-- Witness for C7: vote then revote by the same user. -/
theorem second_vote_already_voted_witness :
    vote_battle 2 "u" "b" "B" (vote_battle 1 "u" "b" "A" c7_wit).state =
      ⟨(vote_battle 1 "u" "b" "A" c7_wit).state, some alreadyVoted⟩ :=
  (second_vote_already_voted 1 2 "u" "b" "A" "B" c7_wit (by decide)).1

/-- C8: `Results` is a pure read (a function of the stored votes with no
state output): `total` counts the battle's vote rows, `count_a`/`count_b`
count the `"A"`/`"B"` choices, each percentage is
`round(count / total * 100, 1)` with both percentages `0` when
`total = 0`; in particular 0 votes yield `(0, 0, 0, 0.0, 0.0)` and three
`"A"` votes against one `"B"` vote yield `(4, 3, 1, 75.0, 25.0)`. -/
theorem results_formula (bid : String) (st : CoordState) :
    (get_battle_results_internal bid st).battle_id = bid ∧
    (get_battle_results_internal bid st).total_votes = st.votes.length ∧
    (get_battle_results_internal bid st).option_a_votes =
      st.votes.countP (fun v => v.choice = "A") ∧
    (get_battle_results_internal bid st).option_b_votes =
      st.votes.countP (fun v => v.choice = "B") ∧
    (get_battle_results_internal bid st).option_a_percentage =
      (if 0 < st.votes.length then
        pyRound1 ((st.votes.countP (fun v => v.choice = "A") : ℚ) /
          (st.votes.length : ℚ) * 100)
       else 0) ∧
    (get_battle_results_internal bid st).option_b_percentage =
      (if 0 < st.votes.length then
        pyRound1 ((st.votes.countP (fun v => v.choice = "B") : ℚ) /
          (st.votes.length : ℚ) * 100)
       else 0) ∧
    get_battle_results_internal "b" resultsZeroState = ⟨"b", 0, 0, 0, 0, 0⟩ ∧
    get_battle_results_internal "b" resultsFourState = ⟨"b", 4, 3, 1, 75, 25⟩ := by
  refine ⟨rfl, rfl, ?_, ?_, ?_, ?_, ?_, ?_⟩
  · rw [List.countP_eq_length_filter]
    rfl
  · rw [List.countP_eq_length_filter]
    rfl
  · by_cases h : 0 < st.votes.length
    · simp [get_battle_results_internal, h, List.countP_eq_length_filter]
    · have h0 : st.votes = [] := List.length_eq_zero.mp (by omega)
      simp [get_battle_results_internal, h0, pyRound1_zero]
  · by_cases h : 0 < st.votes.length
    · simp [get_battle_results_internal, h, List.countP_eq_length_filter]
    · have h0 : st.votes = [] := List.length_eq_zero.mp (by omega)
      simp [get_battle_results_internal, h0, pyRound1_zero]
  · simp [get_battle_results_internal, resultsZeroState, pyRound1_zero]
  · have hA : (resultsFourState.votes.filter (fun v => v.choice = "A")).length = 3 := by
      decide
    have hB : (resultsFourState.votes.filter (fun v => v.choice = "B")).length = 1 := by
      decide
    have hT : resultsFourState.votes.length = 4 := by decide
    simp only [get_battle_results_internal, hA, hB, hT, BattleResultsResponse.mk.injEq]
    norm_num [pyRound1, roundHalfEven]

/-- C9: `validate_mode` admits `"multi"`, and `validate_invites` accepts
a MULTI battle with zero or with five invitees (the 2-3 bound announced
in the validator's comment is never enforced — the branch is `pass`), so
`create_user_battle` succeeds on an empty MULTI invite list; for `1v1`
the exactly-one-invitee rule is enforced. -/
theorem multi_invite_count_unenforced :
    validate_mode "multi" = Except.ok "multi" ∧
    validate_invites "multi" [] = Except.ok [] ∧
    validate_invites "multi" ["a", "b", "c", "d", "e"] =
      Except.ok ["a", "b", "c", "d", "e"] ∧
    (create_user_battle 0 "c" "b" ⟨"t", none, "multi", []⟩).toOption.isSome = true ∧
    validate_invites "1v1" ["a", "b"] =
      Except.error "1v1 battles require exactly one invited user" ∧
    validate_invites "1v1" ["a"] = Except.ok ["a"] := by
  exact ⟨rfl, rfl, rfl, rfl, rfl, rfl⟩

/-- C10: `vote_battle` accepts any `choice` string — a fresh caller's
vote with an arbitrary choice succeeds and the row is persisted — and
consequently Results satisfies `count_a + count_b ≤ total`, with
equality exactly when every stored vote's choice is `"A"` or `"B"`. -/
theorem vote_choice_unvalidated (now : Nat) (uid bid choice : String) (st : CoordState)
    (hno : ∀ v ∈ st.votes, v.user_id ≠ uid) :
    (vote_battle now uid bid choice st).error = none ∧
    Vote.mk uid choice now ∈ (vote_battle now uid bid choice st).state.votes ∧
    (get_battle_results_internal bid st).option_a_votes +
        (get_battle_results_internal bid st).option_b_votes ≤
      (get_battle_results_internal bid st).total_votes ∧
    ((get_battle_results_internal bid st).option_a_votes +
          (get_battle_results_internal bid st).option_b_votes =
        (get_battle_results_internal bid st).total_votes ↔
      ∀ v ∈ st.votes, v.choice = "A" ∨ v.choice = "B") := by
  have hany : (st.votes.any (fun v => v.user_id = uid)) = false := by
    rw [List.any_eq_false]
    intro v hv
    simp [hno v hv]
  obtain ⟨h1, h2, -, -⟩ := vote_battle_any_false now uid bid choice st hany
  obtain ⟨hle, hiff⟩ := filter_ab_le st.votes
  exact ⟨h1, by rw [h2]; simp, hle, hiff⟩

/-- Witness for C10: a vote with choice `"C"` is persisted on a battle
already holding one `"A"` vote and one `"C"` vote. -/
theorem vote_choice_unvalidated_witness :
    (vote_battle 7 "w" "b" "C" c10_wit).error = none ∧
    Vote.mk "w" "C" 7 ∈ (vote_battle 7 "w" "b" "C" c10_wit).state.votes := by
  have h := vote_choice_unvalidated 7 "w" "b" "C" c10_wit (by decide)
  exact ⟨h.1, h.2.1⟩
